import Mathlib

/-!
Verification of the roster-statistics and subscription logic of
`discord_stats.py` (a Discord statistics bot).  The Python data model and
operations are embedded shallowly: `NamedTuple`s become structures, the
statistics functions become pure Lean functions, fallible operations return
`Except PyExc`, and the Discord client is an oracle (`DiscordEnv`) supplying
the outcome of each network call.  Machine-independent details (Python `int`
is unbounded, so `Int`/`Nat` model it exactly; string formatting is modelled
character-for-character) are noted at each definition.
-/

namespace DiscordStats

/-- Python exceptions that the modelled code can raise. -/
inductive PyExc where
  | valueError
  | zeroDivisionError
  | attributeError
  | notFound
  deriving DecidableEq

/-- `SubscribedMessage` NamedTuple: a message updated when statistics change.
Field defaults follow the source (`members=True, warnings=True, stats=False`).
Discord ids are Python ints, modelled as `Int`. -/
structure SubscribedMessage where
  channel_id : Int
  message_id : Int
  members : Bool := true
  warnings : Bool := true
  stats : Bool := false
  deriving DecidableEq

/-- The source's `SubscribedMessage.__eq__`: equality holds iff the
`channel_id` and `message_id` fields agree; the display flags are ignored. -/
def pyEq (a b : SubscribedMessage) : Bool :=
  a.channel_id == b.channel_id && a.message_id == b.message_id

/-- `TeamData` NamedTuple: TLA, member count (leaders excluded), leader flag. -/
structure TeamData where
  TLA : String
  members : Nat := 0
  leader : Bool := false
  deriving DecidableEq

/-- The source compares `self.TLA[-1] == 1`: a one-character string compared
with the integer `1`.  In Python a `str`/`int` comparison is never equal, so
this comparison is constantly `False`. -/
def pyCharIntEq (_ : Char) (_ : Int) : Bool := false

/-- `TeamData.is_primary`: `not self.TLA[-1].isdigit() or self.TLA[-1] == 1`.
On an empty TLA Python would raise `IndexError`; team codes are non-empty
(they come from role names extending the team prefix), and the model returns
`false` in that unreachable case. -/
def TeamData.is_primary (t : TeamData) : Bool :=
  match t.TLA.data.getLast? with
  | none => false
  | some c => !c.isDigit || pyCharIntEq c 1

/-- `TeamData.school`: the TLA with every non-alphabetic character removed
(`''.join(c for c in self.TLA if c.isalpha())`).  Codes are ASCII, where
`Char.isAlpha` agrees with Python's `str.isalpha`. -/
def TeamData.school (t : TeamData) : String :=
  ⟨t.TLA.data.filter Char.isAlpha⟩

/-- Python `str.ljust` / format `:<n`: pad on the right with spaces to width
`n` (no truncation). -/
def pyLjust (s : String) (n : Nat) : String :=
  s ++ ⟨List.replicate (n - s.data.length) ' '⟩

/-- Python format `:>n`: pad on the left with spaces to width `n`. -/
def pyRjust (s : String) (n : Nat) : String :=
  (⟨List.replicate (n - s.data.length) ' '⟩ : String) ++ s

/-- `TeamData.__str__`: `f'{TLA:<15} {members:>2}'`, then the literal
`'  No leader'` appended when `leader` is `False`. -/
def TeamData.str (t : TeamData) : String :=
  pyLjust t.TLA 15 ++ " " ++ pyRjust (toString t.members) 2 ++
    (if t.leader then "" else "  No leader")

/- The Python `TeamsData` NamedTuple only wraps the list `teams_data`; its
methods are modelled as functions over `List TeamData`. -/

/-- `TeamsData.empty_tlas`: TLAs of teams with no members and no leader. -/
def TeamsData.empty_tlas (l : List TeamData) : List String :=
  (l.filter (fun t => !t.leader && t.members == 0)).map TeamData.TLA

/-- `TeamsData.missing_leaders`: TLAs of teams with members but no leader. -/
def TeamsData.missing_leaders (l : List TeamData) : List String :=
  (l.filter (fun t => !t.leader && decide (0 < t.members))).map TeamData.TLA

/-- `TeamsData.leader_only`: TLAs of teams with a leader and no members. -/
def TeamsData.leader_only (l : List TeamData) : List String :=
  (l.filter (fun t => t.leader && t.members == 0)).map TeamData.TLA

/-- `TeamsData.empty_primary_teams`: TLAs of primary teams whose TLA occurs
in `empty_tlas` (the source tests membership of the TLA string). -/
def TeamsData.empty_primary_teams (l : List TeamData) : List String :=
  (l.filter (fun t => t.is_primary && (TeamsData.empty_tlas l).contains t.TLA)).map
    TeamData.TLA

/-- `TeamsData.primary_leader_only`: TLAs of primary teams whose TLA occurs
in `leader_only`. -/
def TeamsData.primary_leader_only (l : List TeamData) : List String :=
  (l.filter (fun t => t.is_primary && (TeamsData.leader_only l).contains t.TLA)).map
    TeamData.TLA

/-- Lines of `TeamsData.team_summary` (the source builds the list and joins
with a newline). -/
def TeamsData.team_summary_lines (l : List TeamData) : List String :=
  "Members per team" :: l.map TeamData.str

/-- `TeamsData.team_summary`. -/
def TeamsData.team_summary (l : List TeamData) : String :=
  String.intercalate "\n" (TeamsData.team_summary_lines l)

/-- Lines of `TeamsData.warnings`: three counts, a blank separator line, then
two primary-filtered counts, exactly as listed in the source. -/
def TeamsData.warnings_lines (l : List TeamData) : List String :=
  [ "Empty teams: " ++ toString (TeamsData.empty_tlas l).length,
    "Teams without leaders: " ++ toString (TeamsData.missing_leaders l).length,
    "Teams with only leaders: " ++ toString (TeamsData.leader_only l).length,
    "",
    "Empty primary teams: " ++ toString (TeamsData.empty_primary_teams l).length,
    "Primary teams with only leaders: " ++
      toString (TeamsData.primary_leader_only l).length ]

/-- `TeamsData.warnings`. -/
def TeamsData.warnings (l : List TeamData) : String :=
  String.intercalate "\n" (TeamsData.warnings_lines l)

/-- Python `min(iterable, key=lambda x: x.members)`: raises `ValueError` on an
empty iterable, otherwise returns the first element attaining the minimum
(the accumulator is replaced only on a strictly smaller key). -/
def pyMinTeams (l : List TeamData) : Except PyExc TeamData :=
  match l with
  | [] => .error .valueError
  | x :: xs => .ok (xs.foldl (fun acc y => if y.members < acc.members then y else acc) x)

/-- Python `max(iterable, key=lambda x: x.members)`: raises `ValueError` on an
empty iterable, otherwise returns the first element attaining the maximum. -/
def pyMaxTeams (l : List TeamData) : Except PyExc TeamData :=
  match l with
  | [] => .error .valueError
  | x :: xs => .ok (xs.foldl (fun acc y => if acc.members < y.members then y else acc) x)

/-- Python `max(school_avg.items(), key=lambda x: x[1])` over the insertion
ordered dict: first pair attaining the maximal second component. -/
def pyMaxAvg (l : List (String × ℚ)) : Except PyExc (String × ℚ) :=
  match l with
  | [] => .error .valueError
  | x :: xs => .ok (xs.foldl (fun acc y => if acc.2 < y.2 then y else acc) x)

/-- `defaultdict(list)` update `school_members[key].append(v)`: keys keep
first-insertion order, values accumulate in append order. -/
def insertGroup : List (String × List Nat) → String → Nat → List (String × List Nat)
  | [], k, v => [(k, [v])]
  | (k', vs) :: rest, k, v =>
      if k' = k then (k', vs ++ [v]) :: rest else (k', vs) :: insertGroup rest k v

/-- The `school_members` grouping built by the loop in `statistics`. -/
def groupSchools (l : List TeamData) : List (String × List Nat) :=
  l.foldl (fun acc t => insertGroup acc t.school t.members) []

/-- `statistics.mean` over the member counts.  In the source every call site
passes a non-empty list (each school group holds at least one entry, and
`member_counts` is only averaged after `min()` has already succeeded on a
non-empty roster), so the `StatisticsError` branch of Python's `mean` is
unreachable and the total rational mean models it exactly there. -/
def ratMean (l : List Nat) : ℚ :=
  mkRat (Int.ofNat l.sum) l.length

/-- Python `/` on ints: true division, raising `ZeroDivisionError` when the
divisor is zero. -/
def pyDivNat (a b : Nat) : Except PyExc ℚ :=
  if b = 0 then .error .zeroDivisionError else .ok (mkRat (Int.ofNat a) b)

/-- Rendering of `f'{x:.1f}'` for the non-negative rationals produced here:
round half-to-even to one decimal place.  (CPython formats the nearest binary
double; for the values asserted in this development the two agree, and no
claim constrains the rounded digits.) -/
def fmt1 (q : ℚ) : String :=
  let n10 : Int := 10 * q.num
  let d : Int := (q.den : Int)
  let fl : Int := Int.fdiv n10 d
  let r : Int := n10 - fl * d
  let n : Int :=
    if 2 * r < d then fl
    else if d < 2 * r then fl + 1
    else if Int.emod fl 2 = 0 then fl else fl + 1
  toString (Int.ediv n 10) ++ "." ++ toString (Int.emod n 10)

/-- Lines of `TeamsData.statistics`, with the source's evaluation order: the
`min()`/`max()` calls run first (raising `ValueError` on an empty roster),
then the school grouping and its maximum, then the `num_members /
num_schools` division (raising `ZeroDivisionError` when no team is primary).
-/
def TeamsData.statistics_lines (l : List TeamData) : Except PyExc (List String) := do
  let num_teams := l.length
  let member_counts := l.map TeamData.members
  let num_members := member_counts.sum
  let num_schools := (l.filter TeamData.is_primary).length
  let min_team ← pyMinTeams l
  let max_team ← pyMaxTeams l
  let school_avg := (groupSchools l).map (fun p => (p.1, ratMean p.2))
  let ma ← pyMaxAvg school_avg
  let avg_school ← pyDivNat num_members num_schools
  pure [
    "Total teams: " ++ toString num_teams,
    "Total schools: " ++ toString num_schools,
    "Total students: " ++ toString num_members,
    "Max team size: " ++ toString max_team.members ++ " (" ++ max_team.TLA ++ ")",
    "Min team size: " ++ toString min_team.members ++ " (" ++ min_team.TLA ++ ")",
    "Average team size: " ++ fmt1 (ratMean member_counts),
    "Average school members: " ++ fmt1 avg_school,
    "Max team size, school average: " ++ fmt1 ma.2 ++ " (" ++ ma.1 ++ ")" ]

/-- `TeamsData.statistics`: the joined report, or the exception it raises. -/
def TeamsData.statistics (l : List TeamData) : Except PyExc String :=
  (TeamsData.statistics_lines l).map (String.intercalate "\n")

/-- `StatBot.msg_str(members, warnings, statistics)`: joins the enabled
sections with a blank separator line.  The statistics section is rendered
only when its flag is set (the Python conditional list expression does not
evaluate `statistics()` otherwise), so only that branch can raise. -/
def StatBot.msg_str (td : List TeamData) (members warnings stats : Bool) :
    Except PyExc String := do
  let stats_part ←
    if stats then do
      let s ← TeamsData.statistics td
      pure [s]
    else pure ([] : List String)
  pure (String.intercalate "\n\n"
    ((if members then [TeamsData.team_summary td] else []) ++
     (if warnings then [TeamsData.warnings td] else []) ++
     stats_part))

/-- The shared body of the `stats` and `stats_subscribe` command handlers:
when all three display flags are false they are replaced by
`members=True, warnings=True` (`stats` stays false) before `msg_str`. -/
def stats_command (td : List TeamData) (members warnings stats : Bool) :
    Except PyExc String :=
  match members, warnings, stats with
  | false, false, false => StatBot.msg_str td true true false
  | m, w, s => StatBot.msg_str td m w s

/-- Outcomes of the Discord client calls, per channel/message id: each call
either returns or raises.  `fetchChannel`'s `Bool` records whether the
returned channel has a `fetch_message` attribute (the source's `hasattr`
test). -/
structure DiscordEnv where
  fetchChannel : Int → Except PyExc Bool
  fetchMessage : Int → Int → Except PyExc Unit
  editMessage : Int → Int → String → Except PyExc Unit
  deleteMessage : Int → Int → Except PyExc Unit

/-- Observable bot state: the in-memory `SUBSCRIBED_MESSAGES` list, the last
content written to `subscribed_messages.json` (`file`), and logs of the
Discord-side edits and deletes performed. -/
structure BotState where
  subs : List SubscribedMessage
  file : List SubscribedMessage
  edits : List (Int × Int × String)
  deletes : List (Int × Int)
  deriving DecidableEq

/-- Python `SUBSCRIBED_MESSAGES.remove(msg)`: drop the first element equal to
`msg` under `SubscribedMessage.__eq__`; `none` models the `ValueError` raised
when no element matches. -/
def pyRemove : List SubscribedMessage → SubscribedMessage → Option (List SubscribedMessage)
  | [], _ => none
  | x :: xs, m => if pyEq x m then some xs else (pyRemove xs m).map (x :: ·)

/-- Python `msg in SUBSCRIBED_MESSAGES`: membership under `__eq__`. -/
def pyContains (l : List SubscribedMessage) (m : SubscribedMessage) : Bool :=
  l.any (fun e => pyEq e m)

/-- `StatBot.add_subscribed_message`: unconditionally append, then save. -/
def add_subscribed_message (s : BotState) (m : SubscribedMessage) : BotState :=
  let subs := s.subs ++ [m]
  { s with subs := subs, file := subs }

/-- `StatBot.remove_subscribed_message`: fetch the channel (propagating any
exception), return silently when the channel has no `fetch_message`, fetch
and delete the Discord message (propagating exceptions), then remove the
entry from the list (Python `list.remove` raises `ValueError` when the entry
is absent) and save.  The second component records an uncaught exception. -/
def remove_subscribed_message (env : DiscordEnv) (m : SubscribedMessage)
    (s : BotState) : BotState × Option PyExc :=
  match env.fetchChannel m.channel_id with
  | .error e => (s, some e)
  | .ok false => (s, none)
  | .ok true =>
    match env.fetchMessage m.channel_id m.message_id with
    | .error e => (s, some e)
    | .ok _ =>
      match env.deleteMessage m.channel_id m.message_id with
      | .error e => (s, some e)
      | .ok _ =>
        match pyRemove s.subs m with
        | none =>
          ({ s with deletes := s.deletes ++ [(m.channel_id, m.message_id)] },
           some .valueError)
        | some subs' =>
          ({ s with
              subs := subs', file := subs',
              deletes := s.deletes ++ [(m.channel_id, m.message_id)] }, none)

/-- The `try` block of one iteration of `update_subscribed_messages`: fetch
the channel, skip silently when it is not messageable, fetch the message and
edit it with `content`; a successful edit is logged.  Any exception is
returned to the caller, which catches only `AttributeError`. -/
def tryEdit (env : DiscordEnv) (m : SubscribedMessage) (content : String)
    (s : BotState) : BotState × Option PyExc :=
  match env.fetchChannel m.channel_id with
  | .error e => (s, some e)
  | .ok false => (s, none)
  | .ok true =>
    match env.fetchMessage m.channel_id m.message_id with
    | .error e => (s, some e)
    | .ok _ =>
      match env.editMessage m.channel_id m.message_id content with
      | .error e => (s, some e)
      | .ok _ =>
        ({ s with edits := s.edits ++ [(m.channel_id, m.message_id, content)] }, none)

/-- One pass of `for sub_msg in SUBSCRIBED_MESSAGES: ...` starting at index
`i`.  CPython iterates lists by index over the live list, so a removal inside
the body shifts the following entries down and the next index skips one.  The
body renders `msg_str` (outside the `try`, so a rendering exception aborts
the pass), attempts the edit, and on `AttributeError` runs
`remove_subscribed_message`, whose own uncaught exceptions also abort the
pass.  `fuel` only bounds the recursion; each iteration moves `i` forward and
never lengthens the list, so `subs.length + 1` fuel is never exhausted. -/
def updateFrom (env : DiscordEnv) (td : List TeamData) :
    Nat → Nat → BotState → BotState × Option PyExc
  | 0, _, s => (s, none)
  | fuel + 1, i, s =>
    match s.subs[i]? with
    | none => (s, none)
    | some m =>
      match StatBot.msg_str td m.members m.warnings m.stats with
      | .error e => (s, some e)
      | .ok body =>
        let content := "```\n" ++ body ++ "\n```"
        match tryEdit env m content s with
        | (s', none) => updateFrom env td fuel (i + 1) s'
        | (s', some .attributeError) =>
          match remove_subscribed_message env m s' with
          | (s'', none) => updateFrom env td fuel (i + 1) s''
          | (s'', some e) => (s'', some e)
        | (s', some e) => (s', some e)

/-- `StatBot.update_subscribed_messages`: run the pass from index 0. -/
def update_subscribed_messages (env : DiscordEnv) (td : List TeamData)
    (s : BotState) : BotState × Option PyExc :=
  updateFrom env td (s.subs.length + 1) 0 s

/- Persistence: the JSON layer of `load_subscribed_messages`.  The store file
holds a JSON array of flat objects, so the model fixes that two-level shape:
a top-level value is an atom, an object of atoms, or an array whose items are
atoms or objects of atoms. -/

/-- Primitive JSON values appearing in the store file. -/
inductive JAtom where
  | jint (n : Int)
  | jbool (b : Bool)
  | jstr (s : String)
  deriving DecidableEq

/-- An element of a top-level JSON array in the store file. -/
inductive JItem where
  | atom (a : JAtom)
  | obj (fields : List (String × JAtom))
  deriving DecidableEq

/-- A top-level JSON value in the store file. -/
inductive JTop where
  | atom (a : JAtom)
  | obj (fields : List (String × JAtom))
  | arr (items : List JItem)
  deriving DecidableEq

/-- A Python value produced by `json.load` with the `SubscribedMessage.load`
object hook: the hook turns an object with exactly the five expected keys in
order into a `SubscribedMessage` and leaves other dicts untouched.
`illTyped` stands for the NamedTuple Python would build from matching keys
whose values are not ints/bools; the typed embedding keeps those field values
separate. -/
inductive PyItem where
  | atom (a : JAtom)
  | dict (fields : List (String × JAtom))
  | illTyped (vals : List JAtom)
  | msg (m : SubscribedMessage)
  deriving DecidableEq

/-- A Python value at the top level of the loaded JSON document. -/
inductive PyVal where
  | item (i : PyItem)
  | list (l : List PyItem)
  deriving DecidableEq

/-- The field names of `SubscribedMessage`, in declaration order
(`cls._fields`). -/
def subscribed_fields : List String :=
  ["channel_id", "message_id", "members", "warnings", "stats"]

/-- `SubscribedMessage.load(dct)`: when the dict's keys are exactly
`cls._fields` in order, build a `SubscribedMessage` from the values,
otherwise return the dict unchanged. -/
def SubscribedMessage.load (fields : List (String × JAtom)) : PyItem :=
  if fields.map Prod.fst = subscribed_fields then
    match fields.map Prod.snd with
    | [.jint c, .jint mi, .jbool b1, .jbool b2, .jbool b3] =>
        .msg ⟨c, mi, b1, b2, b3⟩
    | vals => .illTyped vals
  else .dict fields

/-- The object hook applied to an array element. -/
def decodeItem : JItem → PyItem
  | .atom a => .atom a
  | .obj fields => SubscribedMessage.load fields

/-- `json.load(f, object_hook=SubscribedMessage.load)` on a parsed document. -/
def decodeTop : JTop → PyVal
  | .atom a => .item (.atom a)
  | .obj fields => .item (SubscribedMessage.load fields)
  | .arr items => .list (items.map decodeItem)

/-- The state of `subscribed_messages.json`: missing, present but not valid
JSON, or parsed to a document. -/
inductive FileState where
  | absent
  | unparsable
  | parsed (v : JTop)
  deriving DecidableEq

/-- `load_subscribed_messages()`: on `FileNotFoundError` or
`JSONDecodeError` the global list keeps its current value (`current`, the
empty list at the sole startup call site) and the file is rewritten with
`'[]'`, which parses to the empty array; on success the global becomes the
decoded document and the file is untouched. -/
def load_subscribed_messages (fs : FileState) (current : PyVal) :
    PyVal × FileState :=
  match fs with
  | .absent => (current, .parsed (.arr []))
  | .unparsable => (current, .parsed (.arr []))
  | .parsed v => (decodeTop v, .parsed v)

/-- The JSON encoding `_save_subscribed_messages` writes for one entry
(`json.dump` with the `_asdict` default serializes fields in order). -/
def encodeMsg (m : SubscribedMessage) : JItem :=
  .obj [("channel_id", .jint m.channel_id), ("message_id", .jint m.message_id),
        ("members", .jbool m.members), ("warnings", .jbool m.warnings),
        ("stats", .jbool m.stats)]

/-- The JSON document for a saved subscription list. -/
def encodeMsgs (ms : List SubscribedMessage) : JTop :=
  .arr (ms.map encodeMsg)

/-- Python `int.__eq__` against a JSON-decoded value: ints compare by value,
`bool` is an int subtype (`True == 1`, `False == 0`), and an int never equals
a string. -/
def pyIntAtomEq (n : Int) : JAtom → Bool
  | .jint k => n == k
  | .jbool b => n == (if b then (1 : Int) else 0)
  | .jstr _ => false

/-- `SubscribedMessage.__eq__(self, comp)` against an arbitrary loaded value:
the `isinstance` test rejects atoms and plain dicts; a `SubscribedMessage`
(well-typed or not) is compared on its `channel_id` and `message_id` fields.
An `illTyped` entry always carries the five field values in order. -/
def pyEqItem (m : SubscribedMessage) : PyItem → Bool
  | .msg m' => pyEq m m'
  | .illTyped vals =>
    match vals with
    | [c, mi, _, _, _] => pyIntAtomEq m.channel_id c && pyIntAtomEq m.message_id mi
    | _ => false
  | .atom _ => false
  | .dict _ => false

/- Specification-side selectors and helper definitions used by the theorems. -/

/-- The spec's tie-break rule for the minimum, stated independently of the
fold in `pyMinTeams`: the first team in list order whose member count is a
lower bound for every team. -/
def firstMinTeam (l : List TeamData) : Option TeamData :=
  l.find? (fun u => l.all (fun v => decide (u.members ≤ v.members)))

/-- The spec's tie-break rule for the maximum: the first team in list order
whose member count is an upper bound for every team. -/
def firstMaxTeam (l : List TeamData) : Option TeamData :=
  l.find? (fun u => l.all (fun v => decide (v.members ≤ u.members)))

/-- The accumulator update performed by Python `min(..., key=...)`: replace
only on a strictly smaller key.  `pyMinTeams` folds exactly this step. -/
def minStep (acc y : TeamData) : TeamData :=
  if y.members < acc.members then y else acc

/-- The accumulator update performed by Python `max(..., key=...)`: replace
only on a strictly larger key. -/
def maxStep (acc y : TeamData) : TeamData :=
  if acc.members < y.members then y else acc

/-- The subscription-set invariant claimed by the spec: the identity pair
`(channel_id, message_id)` is unique within the list. -/
def IdNodup (l : List SubscribedMessage) : Prop :=
  (l.map fun m => (m.channel_id, m.message_id)).Nodup

instance (l : List SubscribedMessage) : Decidable (IdNodup l) := by
  unfold IdNodup; infer_instance

/-- A Discord oracle on which every call succeeds and every channel supports
message fetching. -/
def envAllOk : DiscordEnv :=
  { fetchChannel := fun _ => .ok true,
    fetchMessage := fun _ _ => .ok (),
    editMessage := fun _ _ _ => .ok (),
    deleteMessage := fun _ _ => .ok () }

/-- An oracle on which only editing message 10 in channel 1 raises
`AttributeError` (the sole exception `update_subscribed_messages` catches). -/
def envEditAttrFail : DiscordEnv :=
  { fetchChannel := fun _ => .ok true,
    fetchMessage := fun _ _ => .ok (),
    editMessage := fun c mi _ =>
      if c == 1 && mi == 10 then .error .attributeError else .ok (),
    deleteMessage := fun _ _ => .ok () }

/-- An oracle on which fetching message 10 in channel 1 raises `NotFound`,
the exception Discord raises for a deleted message. -/
def envFetchNotFound : DiscordEnv :=
  { fetchChannel := fun _ => .ok true,
    fetchMessage := fun c mi =>
      if c == 1 && mi == 10 then .error .notFound else .ok (),
    editMessage := fun _ _ _ => .ok (),
    deleteMessage := fun _ _ => .ok () }

/-- Two subscribed entries with distinct identities, members section only. -/
def twoSubs : List SubscribedMessage :=
  [⟨1, 10, true, false, false⟩, ⟨2, 20, true, false, false⟩]

/-- A bot state holding the two entries, already persisted. -/
def stTwo : BotState := ⟨twoSubs, twoSubs, [], []⟩

/-- A bot state with no subscriptions. -/
def stEmpty : BotState := ⟨[], [], [], []⟩

/- Helper lemmas. -/

lemma minStep_le_left (acc y : TeamData) : (minStep acc y).members ≤ acc.members := by
  unfold minStep; split <;> omega

lemma minStep_le_right (acc y : TeamData) : (minStep acc y).members ≤ y.members := by
  unfold minStep; split <;> omega

lemma minFold_le (xs : List TeamData) :
    ∀ x, ∀ u ∈ x :: xs, (xs.foldl minStep x).members ≤ u.members := by
  induction xs with
  | nil =>
    intro x u hu
    simp only [List.mem_singleton] at hu
    subst hu; simp [List.foldl]
  | cons y ys ih =>
    intro x u hu
    have hhead : (List.foldl minStep (minStep x y) ys).members ≤ (minStep x y).members :=
      ih (minStep x y) _ (List.mem_cons_self _ _)
    simp only [List.foldl_cons]
    rcases List.mem_cons.mp hu with rfl | hu
    · exact hhead.trans (minStep_le_left _ _)
    · rcases List.mem_cons.mp hu with rfl | hu
      · exact hhead.trans (minStep_le_right _ _)
      · exact ih (minStep x y) u (List.mem_cons_of_mem _ hu)

lemma minFold_mem (xs : List TeamData) : ∀ x, xs.foldl minStep x ∈ x :: xs := by
  induction xs with
  | nil => intro x; simp [List.foldl]
  | cons y ys ih =>
    intro x
    simp only [List.foldl_cons]
    rcases List.mem_cons.mp (ih (minStep x y)) with h | h
    · rw [h]; unfold minStep; split
      · exact List.mem_cons_of_mem _ (List.mem_cons_self _ _)
      · exact List.mem_cons_self _ _
    · exact List.mem_cons_of_mem _ (List.mem_cons_of_mem _ h)

lemma minFold_find (xs : List TeamData) :
    ∀ x, (x :: xs).find? (fun u => decide (u.members ≤ (xs.foldl minStep x).members)) =
      some (xs.foldl minStep x) := by
  induction xs with
  | nil => intro x; simp [List.find?]
  | cons y ys ih =>
    intro x
    simp only [List.foldl_cons]
    by_cases hyx : y.members < x.members
    · have hxy : minStep x y = y := by unfold minStep; simp [hyx]
      simp only [hxy]
      have hm : (List.foldl minStep y ys).members ≤ y.members :=
        minFold_le ys y y (List.mem_cons_self _ _)
      rw [List.find?_cons_of_neg _ (by simp only [decide_eq_true_eq]; omega)]
      exact ih y
    · have hxy : minStep x y = x := by unfold minStep; simp [hyx]
      simp only [hxy]
      have hm : (List.foldl minStep x ys).members ≤ x.members :=
        minFold_le ys x x (List.mem_cons_self _ _)
      by_cases hpx : x.members ≤ (List.foldl minStep x ys).members
      · have hx : List.foldl minStep x ys = x := by
          have h2 := ih x
          rw [List.find?_cons_of_pos _ (by simpa using hpx)] at h2
          exact (Option.some.inj h2).symm
        rw [List.find?_cons_of_pos _ (by simpa using hpx), hx]
      · have hpy : ¬ (y.members ≤ (List.foldl minStep x ys).members) := by omega
        rw [List.find?_cons_of_neg _ (by simpa using hpx),
            List.find?_cons_of_neg _ (by simpa using hpy)]
        have h2 := ih x
        rw [List.find?_cons_of_neg _ (by simpa using hpx)] at h2
        exact h2

lemma find_congr_aux {α : Type} (l : List α) (p q : α → Bool)
    (h : ∀ u ∈ l, p u = q u) : l.find? p = l.find? q := by
  induction l with
  | nil => rfl
  | cons x xs ih =>
    have hx := h x (List.mem_cons_self _ _)
    by_cases hp : p x = true
    · rw [List.find?_cons_of_pos _ hp, List.find?_cons_of_pos _ (hx ▸ hp)]
    · rw [List.find?_cons_of_neg _ hp, List.find?_cons_of_neg _ (by rw [← hx]; exact hp)]
      exact ih fun u hu => h u (List.mem_cons_of_mem _ hu)

lemma firstMinTeam_cons (x : TeamData) (xs : List TeamData) :
    firstMinTeam (x :: xs) = some (xs.foldl minStep x) := by
  unfold firstMinTeam
  rw [find_congr_aux (x :: xs) _ (fun u => decide (u.members ≤ (xs.foldl minStep x).members))]
  · exact minFold_find xs x
  · intro u hu
    by_cases h : u.members ≤ (xs.foldl minStep x).members
    · rw [decide_eq_true h]
      simp only [List.all_eq_true, decide_eq_true_eq]
      exact fun v hv => h.trans (minFold_le xs x v hv)
    · rw [decide_eq_false h, Bool.eq_false_iff]
      intro hc
      rw [List.all_eq_true] at hc
      exact h (by simpa using hc _ (minFold_mem xs x))

lemma maxStep_ge_left (acc y : TeamData) : acc.members ≤ (maxStep acc y).members := by
  unfold maxStep; split <;> omega

lemma maxStep_ge_right (acc y : TeamData) : y.members ≤ (maxStep acc y).members := by
  unfold maxStep; split <;> omega

lemma maxFold_ge (xs : List TeamData) :
    ∀ x, ∀ u ∈ x :: xs, u.members ≤ (xs.foldl maxStep x).members := by
  induction xs with
  | nil =>
    intro x u hu
    simp only [List.mem_singleton] at hu
    subst hu; simp [List.foldl]
  | cons y ys ih =>
    intro x u hu
    have hhead : (maxStep x y).members ≤ (List.foldl maxStep (maxStep x y) ys).members :=
      ih (maxStep x y) _ (List.mem_cons_self _ _)
    simp only [List.foldl_cons]
    rcases List.mem_cons.mp hu with rfl | hu
    · exact (maxStep_ge_left _ _).trans hhead
    · rcases List.mem_cons.mp hu with rfl | hu
      · exact (maxStep_ge_right _ _).trans hhead
      · exact ih (maxStep x y) u (List.mem_cons_of_mem _ hu)

lemma maxFold_mem (xs : List TeamData) : ∀ x, xs.foldl maxStep x ∈ x :: xs := by
  induction xs with
  | nil => intro x; simp [List.foldl]
  | cons y ys ih =>
    intro x
    simp only [List.foldl_cons]
    rcases List.mem_cons.mp (ih (maxStep x y)) with h | h
    · rw [h]; unfold maxStep; split
      · exact List.mem_cons_of_mem _ (List.mem_cons_self _ _)
      · exact List.mem_cons_self _ _
    · exact List.mem_cons_of_mem _ (List.mem_cons_of_mem _ h)

lemma maxFold_find (xs : List TeamData) :
    ∀ x, (x :: xs).find? (fun u => decide ((xs.foldl maxStep x).members ≤ u.members)) =
      some (xs.foldl maxStep x) := by
  induction xs with
  | nil => intro x; simp [List.find?]
  | cons y ys ih =>
    intro x
    simp only [List.foldl_cons]
    by_cases hyx : x.members < y.members
    · have hxy : maxStep x y = y := by unfold maxStep; simp [hyx]
      simp only [hxy]
      have hm : y.members ≤ (List.foldl maxStep y ys).members :=
        maxFold_ge ys y y (List.mem_cons_self _ _)
      rw [List.find?_cons_of_neg _ (by simp only [decide_eq_true_eq]; omega)]
      exact ih y
    · have hxy : maxStep x y = x := by unfold maxStep; simp [hyx]
      simp only [hxy]
      have hm : x.members ≤ (List.foldl maxStep x ys).members :=
        maxFold_ge ys x x (List.mem_cons_self _ _)
      by_cases hpx : (List.foldl maxStep x ys).members ≤ x.members
      · have hx : List.foldl maxStep x ys = x := by
          have h2 := ih x
          rw [List.find?_cons_of_pos _ (by simpa using hpx)] at h2
          exact (Option.some.inj h2).symm
        rw [List.find?_cons_of_pos _ (by simpa using hpx), hx]
      · have hpy : ¬ ((List.foldl maxStep x ys).members ≤ y.members) := by omega
        rw [List.find?_cons_of_neg _ (by simpa using hpx),
            List.find?_cons_of_neg _ (by simpa using hpy)]
        have h2 := ih x
        rw [List.find?_cons_of_neg _ (by simpa using hpx)] at h2
        exact h2

lemma firstMaxTeam_cons (x : TeamData) (xs : List TeamData) :
    firstMaxTeam (x :: xs) = some (xs.foldl maxStep x) := by
  unfold firstMaxTeam
  rw [find_congr_aux (x :: xs) _ (fun u => decide ((xs.foldl maxStep x).members ≤ u.members))]
  · exact maxFold_find xs x
  · intro u hu
    by_cases h : (xs.foldl maxStep x).members ≤ u.members
    · rw [decide_eq_true h]
      simp only [List.all_eq_true, decide_eq_true_eq]
      exact fun v hv => (maxFold_ge xs x v hv).trans h
    · rw [decide_eq_false h, Bool.eq_false_iff]
      intro hc
      rw [List.all_eq_true] at hc
      exact h (by simpa using hc _ (maxFold_mem xs x))

lemma contains_map_filter_tla (l : List TeamData) (p : TeamData → Bool) (t : TeamData)
    (hnd : (l.map TeamData.TLA).Nodup) (ht : t ∈ l) :
    ((l.filter p).map TeamData.TLA).contains t.TLA = p t := by
  by_cases hp : p t = true
  · rw [hp]
    have hmem : t.TLA ∈ (l.filter p).map TeamData.TLA :=
      List.mem_map_of_mem _ (List.mem_filter.mpr ⟨ht, hp⟩)
    simp only [List.contains_eq_any_beq, List.any_eq_true]
    exact ⟨t.TLA, hmem, by simp⟩
  · rw [Bool.eq_false_iff.mpr hp, Bool.eq_false_iff]
    intro hc
    have hmem : t.TLA ∈ (l.filter p).map TeamData.TLA := by
      rcases List.contains_iff_exists_mem_beq.mp hc with ⟨b, hb, hbeq⟩
      rwa [show t.TLA = b from by simpa using hbeq]
    rcases List.mem_map.mp hmem with ⟨u, hu, htla⟩
    rcases List.mem_filter.mp hu with ⟨hul, hup⟩
    have : u = t := List.inj_on_of_nodup_map hnd hul ht htla
    exact hp (this ▸ hup)

lemma empty_primary_chars (l : List TeamData) (hnd : (l.map TeamData.TLA).Nodup) :
    TeamsData.empty_primary_teams l =
      (l.filter (fun t => t.is_primary && (!t.leader && t.members == 0))).map TeamData.TLA := by
  unfold TeamsData.empty_primary_teams TeamsData.empty_tlas
  congr 1
  apply List.filter_congr
  intro t ht
  rw [contains_map_filter_tla l _ t hnd ht]

lemma primary_leader_only_chars (l : List TeamData) (hnd : (l.map TeamData.TLA).Nodup) :
    TeamsData.primary_leader_only l =
      (l.filter (fun t => t.is_primary && (t.leader && t.members == 0))).map TeamData.TLA := by
  unfold TeamsData.primary_leader_only TeamsData.leader_only
  congr 1
  apply List.filter_congr
  intro t ht
  rw [contains_map_filter_tla l _ t hnd ht]

lemma pyRemove_eq_none (l : List SubscribedMessage) (m : SubscribedMessage)
    (h : ∀ e ∈ l, pyEq e m = false) : pyRemove l m = none := by
  induction l with
  | nil => rfl
  | cons x xs ih =>
    simp only [pyRemove, h x (List.mem_cons_self _ _),
      ih fun e he => h e (List.mem_cons_of_mem _ he)]
    rfl

lemma pyRemove_sublist (l : List SubscribedMessage) (m : SubscribedMessage) :
    ∀ l', pyRemove l m = some l' → List.Sublist l' l := by
  induction l with
  | nil => intro l' h; cases h
  | cons x xs ih =>
    intro l' h
    simp only [pyRemove] at h
    by_cases hx : pyEq x m = true
    · rw [hx] at h
      simp only [if_true] at h
      cases h
      exact List.sublist_cons_self x xs
    · rw [Bool.eq_false_iff.mpr hx] at h
      simp only [Bool.false_eq_true, if_false] at h
      cases hrec : pyRemove xs m with
      | none => rw [hrec] at h; cases h
      | some ys =>
        rw [hrec] at h
        simp only [Option.map_some'] at h
        cases h
        exact (ih ys hrec).cons₂ x

/- Claim theorems. -/

/-- Claim C1 (code bug).  The claim says `is_primary` is true iff the
trailing character of the code is non-numeric or is the digit `'1'`, so
`"ROB1"` would be primary.  The code compares `self.TLA[-1] == 1` — a string
against the integer `1`, which is always `False` in Python — so a code ending
in the digit `'1'` is classified as non-primary: `is_primary` is true iff the
trailing character is non-numeric.  This theorem evaluates the code's
behaviour at the failing input `"ROB1"` (and at `"ROB"`, where the
non-numeric arm still works as claimed). -/
theorem c1_is_primary_eval :
    TeamData.is_primary ⟨"ROB1", 0, false⟩ = false ∧
    TeamData.is_primary ⟨"ROB", 0, false⟩ = true :=
  ⟨rfl, rfl⟩

/-- Claim C2 (code bug).  The claim says `statisticsText()` on an empty
snapshot, or on one with school count zero, fails with an `InsufficientData`
error rather than an exception from `min`/`max`/`mean` or a division fault.
The code has no such handling: on the empty roster `min()` raises
`ValueError`, and on a roster with no primary team (e.g. `ROB1`/`ROB2`,
non-primary because of the C1 bug) the `num_members / num_schools` division
raises `ZeroDivisionError`.  This theorem evaluates the code at both failing
inputs. -/
theorem c2_statistics_crash_eval :
    TeamsData.statistics_lines [] = .error .valueError ∧
    TeamsData.statistics_lines [⟨"ROB1", 1, true⟩, ⟨"ROB2", 2, true⟩] =
      .error .zeroDivisionError :=
  ⟨rfl, rfl⟩

/-- Claim C3 (code bug).  The claim says a per-entry fetch/edit failure
removes that entry and every remaining entry is still edited, and a failure
never aborts the pass.  The code violates both parts.  First conjunct: with
two entries where editing the first raises `AttributeError`, the first entry
is removed (as claimed), but because the loop iterates the live list by
index, the removal shifts the second entry onto the consumed index and the
pass ends with no entry edited (`edits = []`) — the second entry is skipped,
not updated.  Second conjunct: a fetch failure with any exception other than
`AttributeError` (here `NotFound`, which Discord raises for a deleted
message) is not caught: the pass aborts with the exception, nothing is
removed and nothing further is edited. -/
theorem c3_reconciliation_eval :
    (update_subscribed_messages envEditAttrFail [] stTwo =
      ({ subs := [⟨2, 20, true, false, false⟩], file := [⟨2, 20, true, false, false⟩],
         edits := [], deletes := [(1, 10)] }, none)) ∧
    (update_subscribed_messages envFetchNotFound [] stTwo =
      (stTwo, some .notFound)) :=
  ⟨rfl, rfl⟩

/-- Claim C4 counterexample.  The claim says the reported "Min team size" is
the minimum over teams with strictly positive member count.  On the roster
`AAA:0, BBB:3` the only strictly-positive team is `BBB` with 3 members, yet
the code reports `Min team size: 0 (AAA)` — `min()` runs over all teams,
including empty ones. -/
theorem c4_counterexample :
    (TeamsData.statistics_lines [⟨"AAA", 0, false⟩, ⟨"BBB", 3, true⟩] =
      .ok ["Total teams: 2", "Total schools: 2", "Total students: 3",
        "Max team size: 3 (BBB)", "Min team size: 0 (AAA)", "Average team size: 1.5",
        "Average school members: 1.5", "Max team size, school average: 3.0 (BBB)"]) ∧
    (([⟨"AAA", 0, false⟩, ⟨"BBB", 3, true⟩] : List TeamData).filter
        (fun t => decide (0 < t.members)) = [⟨"BBB", 3, true⟩]) :=
  ⟨rfl, rfl⟩

/-- Claim C4 as amended: whenever `statisticsText()` succeeds, the reported
"Max team size" line names the first team in list order attaining the maximal
member count, and the reported "Min team size" line names the first team in
list order attaining the minimal member count over all teams (zero-member
teams included, contrary to the original claim); ties are broken by first
occurrence in the sorted-by-code order in which the roster is stored. -/
theorem c4_min_max_reported :
    ∀ (l : List TeamData) (lines : List String) (tmin tmax : TeamData),
    firstMinTeam l = some tmin → firstMaxTeam l = some tmax →
    TeamsData.statistics_lines l = .ok lines →
    lines[3]? = some ("Max team size: " ++ toString tmax.members ++ " (" ++ tmax.TLA ++ ")") ∧
    lines[4]? = some ("Min team size: " ++ toString tmin.members ++ " (" ++ tmin.TLA ++ ")") := by
  intro l lines tmin tmax hmin hmax hstat
  cases l with
  | nil => simp [firstMinTeam, List.find?] at hmin
  | cons x xs =>
    rw [firstMinTeam_cons] at hmin
    rw [firstMaxTeam_cons] at hmax
    injection hmin with hmin
    injection hmax with hmax
    subst hmin hmax
    simp only [TeamsData.statistics_lines, pyMinTeams, pyMaxTeams, bind, Except.bind] at hstat
    cases hma : pyMaxAvg ((groupSchools (x :: xs)).map fun p => (p.1, ratMean p.2)) with
    | error e => rw [hma] at hstat; exact absurd hstat (by simp)
    | ok ma =>
      rw [hma] at hstat
      cases hdiv : pyDivNat ((x :: xs).map TeamData.members).sum
          ((List.filter TeamData.is_primary (x :: xs)).length) with
      | error e => rw [hdiv] at hstat; exact absurd hstat (by simp)
      | ok q =>
        rw [hdiv] at hstat
        simp only [pure, Except.pure, Except.ok.injEq] at hstat
        subst hstat
        constructor <;> rfl

/-- Witness for C4: the amended theorem applied to the one-team roster `A:1`,
whose statistics succeed and report that team for both extremes. -/
theorem c4_min_max_reported_witness :
    (["Total teams: 1", "Total schools: 1", "Total students: 1", "Max team size: 1 (A)",
      "Min team size: 1 (A)", "Average team size: 1.0", "Average school members: 1.0",
      "Max team size, school average: 1.0 (A)"][3]? = some "Max team size: 1 (A)") ∧
    (["Total teams: 1", "Total schools: 1", "Total students: 1", "Max team size: 1 (A)",
      "Min team size: 1 (A)", "Average team size: 1.0", "Average school members: 1.0",
      "Max team size, school average: 1.0 (A)"][4]? = some "Min team size: 1 (A)") :=
  c4_min_max_reported [⟨"A", 1, true⟩]
    ["Total teams: 1", "Total schools: 1", "Total students: 1", "Max team size: 1 (A)",
      "Min team size: 1 (A)", "Average team size: 1.0", "Average school members: 1.0",
      "Max team size, school average: 1.0 (A)"]
    ⟨"A", 1, true⟩ ⟨"A", 1, true⟩ rfl rfl rfl

/-- Claim C5 counterexample.  The claim says `warningsText()` reports six
counts — the three base counts and three primary-filtered variants — each as
a `"<label>: <count>"` line.  The output has six lines, but the fourth is an
empty separator line and only five are count lines: there is no
primary-filtered variant of the missing-leader count. -/
theorem c5_counterexample :
    ((TeamsData.warnings_lines []).length = 6) ∧
    ((TeamsData.warnings_lines []).filter (fun s => !s.isEmpty) =
      ["Empty teams: 0", "Teams without leaders: 0", "Teams with only leaders: 0",
       "Empty primary teams: 0", "Primary teams with only leaders: 0"]) :=
  ⟨rfl, rfl⟩

/-- Claim C5 as amended: for every snapshot with pairwise-distinct codes,
`warningsText()` outputs, in fixed order, five counts — empty,
missing-leader, leader-only, then the two primary-filtered variants (empty
and leader-only; there is no primary missing-leader count) — each as a
`"<label>: <count>"` line, with an empty separator line between the base
group and the primary group. -/
theorem c5_warnings_counts : ∀ l : List TeamData, (l.map TeamData.TLA).Nodup →
    TeamsData.warnings_lines l = [
      "Empty teams: " ++
        toString (l.filter (fun t => !t.leader && t.members == 0)).length,
      "Teams without leaders: " ++
        toString (l.filter (fun t => !t.leader && decide (0 < t.members))).length,
      "Teams with only leaders: " ++
        toString (l.filter (fun t => t.leader && t.members == 0)).length,
      "",
      "Empty primary teams: " ++
        toString (l.filter (fun t => t.is_primary && (!t.leader && t.members == 0))).length,
      "Primary teams with only leaders: " ++
        toString (l.filter (fun t => t.is_primary && (t.leader && t.members == 0))).length ] := by
  intro l hnd
  simp only [TeamsData.warnings_lines, TeamsData.empty_tlas, TeamsData.missing_leaders,
    TeamsData.leader_only, empty_primary_chars l hnd, primary_leader_only_chars l hnd,
    List.length_map]

/-- Witness for C5: the amended theorem applied to a one-team snapshot with
an empty primary team. -/
theorem c5_warnings_counts_witness :
    TeamsData.warnings_lines [⟨"ABC", 0, false⟩] =
      ["Empty teams: 1", "Teams without leaders: 0", "Teams with only leaders: 0", "",
       "Empty primary teams: 1", "Primary teams with only leaders: 0"] :=
  c5_warnings_counts [⟨"ABC", 0, false⟩] (by decide)

/-- Claim C6 (confirmed).  `load()` fails open: on a missing or unparsable
file the subscription sequence is the empty list (the module-level initial
value, untouched by the handler) and the file is rewritten with `[]`; on a
file holding a well-formed array of entries it yields exactly those entries,
leaving the file unchanged. -/
theorem c6_load_fails_open :
    (load_subscribed_messages .absent (.list []) = (.list [], .parsed (.arr []))) ∧
    (load_subscribed_messages .unparsable (.list []) = (.list [], .parsed (.arr []))) ∧
    (∀ (ms : List SubscribedMessage) (current : PyVal),
      load_subscribed_messages (.parsed (encodeMsgs ms)) current =
        (.list (ms.map PyItem.msg), .parsed (encodeMsgs ms))) := by
  refine ⟨rfl, rfl, ?_⟩
  intro ms current
  simp only [load_subscribed_messages, decodeTop, encodeMsgs, List.map_map, Prod.mk.injEq,
    PyVal.list.injEq]
  exact ⟨List.map_congr_left fun m _ => rfl, trivial⟩

/-- Claim C7 counterexample.  The claim says removing a non-existent identity
is a no-op that raises no error and changes nothing.  With an empty
subscription list and an oracle on which all Discord calls succeed, removing
identity `(5, 6)` raises `ValueError` (from `list.remove` on a list without
the entry) after having deleted the target Discord message — neither silent
nor effect-free. -/
theorem c7_counterexample :
    ((remove_subscribed_message envAllOk ⟨5, 6, true, true, false⟩ stEmpty).2 =
      some .valueError) ∧
    ((remove_subscribed_message envAllOk ⟨5, 6, true, true, false⟩ stEmpty).1.deletes =
      [(5, 6)]) :=
  ⟨rfl, rfl⟩

/-- Claim C7 as amended: removing an identity not in the subscription list,
when the channel fetch succeeds, the channel supports message fetching, and
the message fetch and delete succeed, deletes the target Discord message and
then fails with `ValueError`; the in-memory list and the persisted store are
left unchanged.  (It is a silent no-op only when the fetched channel has no
`fetch_message`; failures of the fetches propagate as exceptions.) -/
theorem c7_remove_absent :
    ∀ (env : DiscordEnv) (m : SubscribedMessage) (s : BotState),
    env.fetchChannel m.channel_id = .ok true →
    env.fetchMessage m.channel_id m.message_id = .ok () →
    env.deleteMessage m.channel_id m.message_id = .ok () →
    (∀ e ∈ s.subs, pyEq e m = false) →
    remove_subscribed_message env m s =
      ({ s with deletes := s.deletes ++ [(m.channel_id, m.message_id)] },
       some .valueError) := by
  intro env m s h1 h2 h3 h4
  unfold remove_subscribed_message
  rw [h1, h2, h3]
  simp only [pyRemove_eq_none _ _ h4]

/-- Witness for C7: the amended theorem applied to identity `(7, 8)` over the
empty subscription list and the all-success oracle. -/
theorem c7_remove_absent_witness :
    remove_subscribed_message envAllOk ⟨7, 8, true, true, false⟩ stEmpty =
      ({ stEmpty with deletes := stEmpty.deletes ++ [(7, 8)] }, some .valueError) :=
  c7_remove_absent envAllOk ⟨7, 8, true, true, false⟩ stEmpty rfl rfl rfl (by decide)

/-- Claim C8 counterexample.  The claim says a duplicate `add` with an
already-present identity does not create a second entry.  `add` appends
unconditionally: adding identity `(1, 2)` to a list already holding it yields
two entries with the same identity pair, breaking the uniqueness invariant. -/
theorem c8_counterexample :
    ((add_subscribed_message
        ⟨[⟨1, 2, false, false, true⟩], [⟨1, 2, false, false, true⟩], [], []⟩
        ⟨1, 2, true, true, false⟩).subs.length = 2) ∧
    ¬ IdNodup ((add_subscribed_message
        ⟨[⟨1, 2, false, false, true⟩], [⟨1, 2, false, false, true⟩], [], []⟩
        ⟨1, 2, true, true, false⟩).subs) :=
  ⟨rfl, by decide⟩

/-- Claim C8 as amended: identity-uniqueness is preserved by `add` only when
the added identity is not already present (a duplicate add does create a
second entry), and is preserved by `remove` on every outcome (the list is
either untouched or loses its first identity match). -/
theorem c8_identity_unique :
    (∀ (s : BotState) (m : SubscribedMessage), IdNodup s.subs →
      (∀ e ∈ s.subs, pyEq e m = false) → IdNodup (add_subscribed_message s m).subs) ∧
    (∀ (env : DiscordEnv) (m : SubscribedMessage) (s : BotState),
      IdNodup s.subs → IdNodup (remove_subscribed_message env m s).1.subs) := by
  constructor
  · intro s m hnd hfresh
    simp only [add_subscribed_message, IdNodup, List.map_append, List.nodup_append]
    refine ⟨hnd, List.nodup_singleton _, ?_⟩
    intro a ha hb
    simp only [List.map_cons, List.map_nil, List.mem_singleton] at hb
    subst hb
    rcases List.mem_map.mp ha with ⟨e, he, hae⟩
    have hf := hfresh e he
    rw [pyEq] at hf
    rw [Prod.mk.injEq] at hae
    rw [hae.1, hae.2] at hf
    simp at hf
  · intro env m s hnd
    unfold remove_subscribed_message
    cases env.fetchChannel m.channel_id with
    | error e => exact hnd
    | ok b =>
      cases b
      · exact hnd
      · cases env.fetchMessage m.channel_id m.message_id with
        | error e => exact hnd
        | ok u =>
          cases env.deleteMessage m.channel_id m.message_id with
          | error e => exact hnd
          | ok u2 =>
            cases u; cases u2
            cases hrem : pyRemove s.subs m with
            | none => exact hnd
            | some subs' =>
              exact ((pyRemove_sublist _ _ _ hrem).map _).nodup hnd

/-- Witness for C8: both parts of the amended theorem at concrete states —
adding a fresh identity `(3, 4)` to a one-entry list, and removing an absent
identity `(9, 9)` from a one-entry list. -/
theorem c8_identity_unique_witness :
    IdNodup ((add_subscribed_message
        ⟨[⟨1, 2, true, true, false⟩], [⟨1, 2, true, true, false⟩], [], []⟩
        ⟨3, 4, true, true, false⟩).subs) ∧
    IdNodup ((remove_subscribed_message envAllOk ⟨9, 9, true, true, false⟩
        ⟨[⟨1, 2, true, true, false⟩], [⟨1, 2, true, true, false⟩], [], []⟩).1.subs) :=
  ⟨c8_identity_unique.1 _ _ (by decide) (by decide),
   c8_identity_unique.2 envAllOk _ _ (by decide)⟩

/-- Claim C9 (confirmed).  `SubscribedMessage.__eq__` is determined solely by
the identity pair: it equals the conjunction of the `channel_id` and
`message_id` comparisons (so entries differing only in display flags compare
equal), an entry never compares equal to a non-`SubscribedMessage` value
(atom or dict), and consequently list membership tests match on identity
alone. -/
theorem c9_eq_identity_only :
    (∀ a b : SubscribedMessage,
      pyEq a b = (decide (a.channel_id = b.channel_id) &&
        decide (a.message_id = b.message_id))) ∧
    (∀ (m : SubscribedMessage) (x : JAtom), pyEqItem m (.atom x) = false) ∧
    (∀ (m : SubscribedMessage) (fields : List (String × JAtom)),
      pyEqItem m (.dict fields) = false) ∧
    (∀ (l : List SubscribedMessage) (m : SubscribedMessage),
      pyContains l m = l.any fun e =>
        decide (e.channel_id = m.channel_id) && decide (e.message_id = m.message_id)) := by
  have hpy : ∀ a b : SubscribedMessage,
      pyEq a b = (decide (a.channel_id = b.channel_id) &&
        decide (a.message_id = b.message_id)) := by
    intro a b
    by_cases h1 : a.channel_id = b.channel_id <;> by_cases h2 : a.message_id = b.message_id <;>
      simp [pyEq, h1, h2]
  refine ⟨hpy, fun _ _ => rfl, fun _ _ => rfl, ?_⟩
  intro l m
  induction l with
  | nil => rfl
  | cons x xs ih =>
    simp only [pyContains, List.any_cons] at ih ⊢
    rw [hpy x m, ih]

/-- Claim C10 (confirmed).  `msg_str` with all three display flags false
returns the empty string — no section is rendered and no separator is
emitted — and the all-false default-filling to `members=True, warnings=True`
happens in the command handlers, not in `msg_str` itself. -/
theorem c10_msg_str_all_false :
    (∀ td : List TeamData, StatBot.msg_str td false false false = .ok "") ∧
    (∀ td : List TeamData, stats_command td false false false =
      StatBot.msg_str td true true false) :=
  ⟨fun _ => rfl, fun _ => rfl⟩

end DiscordStats
